import Mathlib

/-!
Verification development for the brewcop repository: a shallow embedding of
the Avery-Berkel bench-scale reader (scale.c, test/query.c) and of the coffee
pot monitor (pot.c), together with theorems settling the specified behaviour
against the embedded code.

Bytes of the serial protocol are natural numbers; numeric values parsed from
frames are exact rationals; the C float-to-int assignment is truncation toward
zero; the stateful scale_read loop is embedded as explicit recursion over the
trace of response frames the scale produces, threading the output
location as explicit state.
-/

namespace Brewcop

/-- ASCII digit test, as used by the C library numeric scanners. -/
def isDigit (b : ℕ) : Bool := decide (48 ≤ b) && decide (b ≤ 57)

/-- C isspace test (space and TAB..CR), the leading-whitespace skip of
strtod. -/
def isSpace (b : ℕ) : Bool := decide (b = 32) || (decide (9 ≤ b) && decide (b ≤ 13))

/-- Scan a maximal run of ASCII digits, returning their numeric value, the
number of digits, and the unconsumed rest of the input. -/
def scanDigits : List ℕ → Nat × Nat × List ℕ
  | [] => (0, 0, [])
  | b :: r =>
    if isDigit b then
      let (v, n, rest) := scanDigits r
      ((b - 48) * 10 ^ n + v, n + 1, rest)
    else (0, 0, b :: r)

/-- Scan an optional sign byte (45 is a minus, 43 a plus); true means
negative. -/
def scanSign : List ℕ → Bool × List ℕ
  | [] => (false, [])
  | b :: r => if b = 45 then (true, r) else if b = 43 then (false, r) else (false, b :: r)

/-- Scan an optionally signed digit run: the %d conversion of fscanf, and
the exponent of strtod. -/
def scanIntSigned (l : List ℕ) : Option (Int × List ℕ) :=
  let (neg, l1) := scanSign l
  let (v, n, l2) := scanDigits l1
  if n = 0 then none else some (if neg then -(v : Int) else (v : Int), l2)

/-- Scan an optional decimal exponent (the byte 101 is a lowercase e, 69 an
uppercase one); when no well-formed exponent follows, nothing is consumed,
as strtod backtracks. -/
def scanExp (l : List ℕ) : Int × List ℕ :=
  match l with
  | [] => (0, [])
  | b :: r =>
    if b = 101 ∨ b = 69 then
      match scanIntSigned r with
      | some (k, r2) => (k, r2)
      | none => (0, b :: r)
    else (0, b :: r)

/-- Scan a decimal floating literal: optional sign, integer digits, an
optional point (byte 46) with fraction digits, and an optional exponent,
as parsed by the %f conversion of fscanf and by strtod; the value is returned
exactly, as a rational. -/
def scanDec (l : List ℕ) : Option (ℚ × List ℕ) :=
  let (neg, l1) := scanSign l
  let (iv, ic, l2) := scanDigits l1
  let (fv, fc, l3) :=
    match l2 with
    | 46 :: r => scanDigits r
    | _ => (0, 0, l2)
  if ic = 0 ∧ fc = 0 then none
  else
    let mant : ℚ := (iv : ℚ) + (fv : ℚ) / 10 ^ fc
    let (ev, l4) := scanExp l3
    some ((if neg then -1 else 1 : ℚ) * (mant * 10 ^ ev), l4)

/-- Outcome of decoding one ETX-terminated response frame, one constructor
per branch of scale_read in scale.c. -/
inductive Outcome where
  | weight (v : ℚ) (status : Int)
  | overCap (status : Int)
  | underCap (status : Int)
  | zeroErr (status : Int)
  | statusOnly (status : Int)
  | unparseable
deriving DecidableEq

/-- One directive of an fscanf format string as scale_read uses them: a
whitespace directive (any whitespace character of the format, adjacent
ones forming a single directive), a literal byte, the %f conversion, or
the %d conversion. -/
inductive ScanItem where
  | ws
  | lit (b : ℕ)
  | convF
  | convD

/-- Result of running a format against a stream: the stream position
reached (consumed bytes removed; a mismatching literal byte stays
unread), and the values assigned by the %f and %d conversions when
reached and successful. The fscanf return value that scale_read compares
against 2 or 1 is the number of assignments, so it is derived from the
two option fields: a directive failing after the last conversion does not
lower it. -/
structure ScanResult where
  rest : List ℕ
  fval : Option ℚ
  ival : Option ℤ

/-- The %f input item under the C11 fscanf rules: the longest input
prefix that is a prefix of a matching decimal floating sequence is
consumed, and the conversion succeeds only when that item is itself a
matching sequence. Hence a lone sign, a lone point, or a dangling
exponent part is consumed and fails, while a byte that cannot start a
float consumes nothing; the hexadecimal and infinity/nan forms never
occur in this protocol and are not modelled. -/
def floatItem (l : List ℕ) : Option ℚ × List ℕ :=
  let (neg, l1) := scanSign l
  let (iv, ic, l2) := scanDigits l1
  let (fv, fc, l3) :=
    match l2 with
    | 46 :: r => scanDigits r
    | _ => (0, 0, l2)
  if ic = 0 ∧ fc = 0 then (none, l3)
  else
    let mant : ℚ := (iv : ℚ) + (fv : ℚ) / 10 ^ fc
    let sv : ℚ := if neg then -mant else mant
    match l3 with
    | 101 :: r | 69 :: r =>
      let (eneg, r1) := scanSign r
      let (ev, en, r2) := scanDigits r1
      if en = 0 then (none, r2)
      else (some (sv * 10 ^ (if eneg then -(ev : ℤ) else (ev : ℤ))), r2)
    | _ => (some sv, l3)

/-- The %d input item: an optional sign then digits; a lone sign is
consumed and fails, a byte that cannot start an integer consumes
nothing. -/
def intItem (l : List ℕ) : Option ℤ × List ℕ :=
  let (neg, l1) := scanSign l
  let (v, n, l2) := scanDigits l1
  if n = 0 then (none, l2)
  else (some (if neg then -(v : ℤ) else (v : ℤ)), l2)

/-- Run a format item list against a stream with the C consumption rules:
a whitespace directive consumes a maximal (possibly empty) whitespace run
and never fails; a literal consumes its byte, or fails leaving the
mismatching byte unread; a conversion skips whitespace, consumes its
input item, and records the value on success. The scan stops at the first
failing directive, at the stream position then reached. -/
def runScan : List ScanItem → List ℕ → Option ℚ → Option ℤ → ScanResult
  | [], s, f, d => ⟨s, f, d⟩
  | .ws :: items, s, f, d => runScan items (s.dropWhile isSpace) f d
  | .lit b :: items, s, f, d =>
    match s with
    | [] => ⟨[], f, d⟩
    | c :: rest => if c = b then runScan items rest f d else ⟨c :: rest, f, d⟩
  | .convF :: items, s, f, d =>
    match floatItem (s.dropWhile isSpace) with
    | (some v, rest) => runScan items rest (some v) d
    | (none, rest) => ⟨rest, f, d⟩
  | .convD :: items, s, f, d =>
    match intItem (s.dropWhile isSpace) with
    | (some v, rest) => runScan items rest f (some v)
    | (none, rest) => ⟨rest, f, d⟩

/-- The value format of scale.c, NL %f L B CR LF S %d CR ETX: the NL and
the CR LF and CR separators are whitespace directives. -/
def fmtValue : List ScanItem :=
  [.ws, .convF, .lit 76, .lit 66, .ws, .lit 83, .convD, .ws, .lit 3]

/-- The six-symbol formats of scale.c: NL, six copies of the byte c, CR
LF, S, %d, CR, ETX; c is 94 for over capacity, 95 for under capacity, 45
for a zeroing error. -/
def fmtSymbol (c : ℕ) : List ScanItem :=
  [.ws, .lit c, .lit c, .lit c, .lit c, .lit c, .lit c, .ws, .lit 83, .convD, .ws, .lit 3]

/-- The status-only format of scale.c, NL S %d CR ETX. -/
def fmtStatus : List ScanItem :=
  [.ws, .lit 83, .convD, .ws, .lit 3]

/-- Decode one response frame by the five fscanf calls of scale_read run
over a shared stream: each failed call leaves its consumed bytes
consumed, so in particular the failed %f of the value pattern eats the
leading dash of a canonical zeroing frame (its input item), after which
the six-dash pattern cannot match and the status-only pattern consumes
the remainder. A call counts for scale_read when all its conversions were
assigned, mirroring the == 2 and == 1 return-value checks. -/
def decode (f : List ℕ) : Outcome :=
  let r1 := runScan fmtValue f none none
  match r1.fval, r1.ival with
  | some v, some st => .weight v st
  | _, _ =>
    let r2 := runScan (fmtSymbol 94) r1.rest none none
    match r2.ival with
    | some st => .overCap st
    | none =>
      let r3 := runScan (fmtSymbol 95) r2.rest none none
      match r3.ival with
      | some st => .underCap st
      | none =>
        let r4 := runScan (fmtSymbol 45) r3.rest none none
        match r4.ival with
        | some st => .zeroErr st
        | none =>
          let r5 := runScan fmtStatus r4.rest none none
          match r5.ival with
          | some st => .statusOnly st
          | none => .unparseable

/-- The errno values scale_read can set: ERANGE for over or under
capacity, EDOM for a zeroing error, EPROTO for an unknown response. -/
inductive ScaleErr where
  | erange
  | edom
  | eproto
deriving DecidableEq

/-- One scale_read call, embedded over the trace of response frames the
scale produces: each loop iteration writes the W CR query and consumes the
next response frame. The result is none when the trace is exhausted with
the call still looping (blocked waiting for input); otherwise it carries
the returned value or errno, the final contents of the output
location (threaded explicitly from its initial contents), and the
unconsumed responses. -/
def scale_read : List (List ℕ) → ℚ → Option (Except ScaleErr ℚ × ℚ × List (List ℕ))
  | [], _ => none
  | f :: rest, wp =>
    match decode f with
    | .weight v _ => some (.ok v, v, rest)
    | .overCap _ => some (.error .erange, wp, rest)
    | .underCap _ => some (.error .erange, wp, rest)
    | .zeroErr _ => some (.error .edom, wp, rest)
    | .statusOnly _ => scale_read rest wp
    | .unparseable => some (.error .eproto, wp, rest)

/-- The strtod call of parse_value in test/query.c: skip leading
whitespace, then scan a decimal literal; the hexadecimal and infinity/nan
forms never occur in this protocol and are not modelled. -/
def strtod (l : List ℕ) : Option (ℚ × List ℕ) :=
  scanDec (l.dropWhile isSpace)

/-- parse_value of test/query.c: byte 0 must be NL, bytes 7 to 9 must be
L, B, CR, and strtod is run from byte 1, the parse being accepted only
when endptr lands exactly on byte 7, i.e. exactly 6 bytes of the value
field were consumed. -/
def parse_value (buf : List ℕ) : Option ℚ :=
  if buf[0]? = some 10 ∧ buf[7]? = some 76 ∧ buf[8]? = some 66 ∧ buf[9]? = some 13 then
    match strtod (buf.drop 1) with
    | some (w, rest) => if (buf.drop 1).length - rest.length = 6 then some w else none
    | none => none
  else none

/-- Truncation toward zero: the conversion a C assignment of a float
expression to an int performs. -/
def ratTrunc (q : ℚ) : Int := if 0 ≤ q then ⌊q⌋ else ⌈q⌉

/-- The percentage line of pot_checker in pot.c:
pct = 100 * (lbs - empty_lbs) / (full_lbs - empty_lbs), an int assignment
that truncates toward zero. -/
def pot_pct (empty_lbs full_lbs lbs : ℚ) : Int :=
  ratTrunc (100 * (lbs - empty_lbs) / (full_lbs - empty_lbs))

/-- Modelled from the spec: the percentage as the spec words it, namely
100 * (weight - empty_lbs) / (full_lbs - empty_lbs) rounded to the
nearest integer. -/
def pot_pct_spec (empty_lbs full_lbs lbs : ℚ) : Int :=
  round (100 * (lbs - empty_lbs) / (full_lbs - empty_lbs))

/-- The events pot_update can log: off, and on with the new percentage. -/
inductive PotEvent where
  | off
  | on (pct : Int)
deriving DecidableEq

/-- pot_update of pot.c, on the previously stored percentage and the new
one: the logged event, if any, together with the unconditionally stored
new percentage. -/
def pot_update (prev pct : Int) : Option PotEvent × Int :=
  if pct < 0 ∧ 0 ≤ prev then (some .off, pct)
  else if 0 ≤ pct ∧ prev ≤ 0 then (some (.on pct), pct)
  else (none, pct)

/-- The configuration hash as zhash_load leaves it: each key either bound
or absent; numeric fields already carry the strtof value of their
string. -/
structure ConfHash where
  name : Option String
  scale_device : Option String
  full_lbs : Option ℚ
  empty_lbs : Option ℚ
  pct_err : Option ℚ

/-- The pot_t fields pot_init fills from the configuration. -/
structure Pot where
  name : String
  scaledev : String
  full_lbs : ℚ
  empty_lbs : ℚ
  pct_err : Int
deriving DecidableEq

/-- The configuration-loading part of pot_init in pot.c: get_conf_str and
get_conf_num call msg_exit, modelled as none, exactly when the key is
absent; no further validation is performed on the values, and the
pct_err float is int-cast. -/
def pot_init (c : ConfHash) : Option Pot := do
  let n ← c.name
  let d ← c.scale_device
  let f ← c.full_lbs
  let e ← c.empty_lbs
  let p ← c.pct_err
  pure ⟨n, d, f, e, ratTrunc p⟩

/-- The status-only frame NL S 1 0 CR ETX: scale in motion. -/
def frameS10 : List ℕ := [10, 83, 49, 48, 13, 3]

/-- The status-only frame NL S 0 0 CR ETX: status OK, no value. -/
def frameS00 : List ℕ := [10, 83, 48, 48, 13, 3]

/-- The 16-byte value frame NL 0 0 . 0 0 0 L B CR NL S 0 0 CR ETX. -/
def frameW000S00 : List ℕ :=
  [10, 48, 48, 46, 48, 48, 48, 76, 66, 13, 10, 83, 48, 48, 13, 3]

/-- The 16-byte value frame NL 0 0 . 0 0 0 L B CR NL S 1 0 CR ETX: a
value together with the in-motion status 10. -/
def frameW000S10 : List ℕ :=
  [10, 48, 48, 46, 48, 48, 48, 76, 66, 13, 10, 83, 49, 48, 13, 3]

/-- A 13-byte value frame NL 1 . 5 L B CR NL S 0 0 CR ETX whose numeric
field is 3 bytes wide instead of the 6 of a regular frame. -/
def frameW15S00 : List ℕ :=
  [10, 49, 46, 53, 76, 66, 13, 10, 83, 48, 48, 13, 3]

/-- The over-capacity frame NL ^ ^ ^ ^ ^ ^ CR NL S 0 2 CR ETX. -/
def frameOver : List ℕ :=
  [10, 94, 94, 94, 94, 94, 94, 13, 10, 83, 48, 50, 13, 3]

/-- The under-capacity frame NL _ _ _ _ _ _ CR NL S 0 1 CR ETX. -/
def frameUnder : List ℕ :=
  [10, 95, 95, 95, 95, 95, 95, 13, 10, 83, 48, 49, 13, 3]

/-- The canonical zeroing-error frame NL - - - - - - CR NL S 0 0 CR ETX,
as the scale sends it. -/
def frameZero : List ℕ :=
  [10, 45, 45, 45, 45, 45, 45, 13, 10, 83, 48, 48, 13, 3]

/-- A seven-dash dash frame: the only kind of dash frame the six-dash
pattern of scale_read can match, because the failed %f of the value
pattern has already consumed the first dash as its input item. -/
def frameZero7 : List ℕ :=
  [10, 45, 45, 45, 45, 45, 45, 45, 13, 10, 83, 48, 48, 13, 3]

/-- The general well-formed 16-byte value frame: NL, two integer digits, a
point, three fraction digits, L, B, CR, NL, S, two status digits, CR, ETX;
each of a, b, c, d, e, s1, s2 below 10 is the numeric value of its
digit. -/
def valueFrame (a b c d e s1 s2 : ℕ) : List ℕ :=
  [10, 48 + a, 48 + b, 46, 48 + c, 48 + d, 48 + e, 76, 66, 13, 10, 83, 48 + s1, 48 + s2, 13, 3]

/-- The first 10 bytes of the all-zero value frame, as handed to
parse_value. -/
def bufW000 : List ℕ := [10, 48, 48, 46, 48, 48, 48, 76, 66, 13]

/-- A configuration with every required key present but with full_lbs
equal to empty_lbs. -/
def confEqualBounds : ConfHash :=
  ⟨some (r"pot"), some (r"ttyUSB0"), some 1, some 1, some 0⟩

lemma decode_frameS10 : decode frameS10 = .statusOnly 10 := by decide

lemma decode_frameS00 : decode frameS00 = .statusOnly 0 := by decide

lemma decode_frameW000S00 : decode frameW000S00 = .weight 0 0 := by
  norm_num [frameW000S00, decode, runScan, fmtValue, fmtSymbol, fmtStatus, floatItem, intItem,
    scanDigits, scanSign, isDigit, isSpace, List.dropWhile]

lemma decode_frameW000S10 : decode frameW000S10 = .weight 0 10 := by
  norm_num [frameW000S10, decode, runScan, fmtValue, fmtSymbol, fmtStatus, floatItem, intItem,
    scanDigits, scanSign, isDigit, isSpace, List.dropWhile]

lemma decode_frameW15S00 : decode frameW15S00 = .weight (3 / 2) 0 := by
  norm_num [frameW15S00, decode, runScan, fmtValue, fmtSymbol, fmtStatus, floatItem, intItem,
    scanDigits, scanSign, isDigit, isSpace, List.dropWhile]

lemma scale_read_motion_aux (n : ℕ) (rest : List (List ℕ)) (wp : ℚ) :
    scale_read (List.replicate n frameS10 ++ rest) wp = scale_read rest wp := by
  induction n with
  | zero => rfl
  | succ k ih =>
    rw [List.replicate_succ, List.cons_append]
    simpa [scale_read, decode_frameS10] using ih

/-- Claim C2 (amended): scale_read has no retry cap: every status-only response
makes it re-issue the query and consume the next response, so after any
number n of consecutive in-motion responses the call behaves exactly as a
fresh call on the remaining trace, and no timeout error is ever
produced. -/
theorem scale_read_unbounded_retry (n : ℕ) (rest : List (List ℕ)) (wp : ℚ) :
    scale_read (List.replicate n frameS10 ++ rest) wp = scale_read rest wp :=
  scale_read_motion_aux n rest wp

/-- Claim C2 (counterexample): there is no retry cap after which scale_read
returns: for every candidate cap, feeding that many in-motion responses
leaves the call still looping with no result, refuting the claim that
read re-issues the query at most a bounded number of times and then
returns a timeout error. -/
theorem scale_read_never_times_out :
    ¬ ∃ cap : ℕ, ∀ n : ℕ, cap ≤ n →
      (scale_read (List.replicate n frameS10) 0).isSome = true := by
  rintro ⟨cap, h⟩
  have h2 := h cap le_rfl
  have h3 : scale_read (List.replicate cap frameS10) (0 : ℚ) = none := by
    simpa using scale_read_motion_aux cap [] 0
  rw [h3] at h2
  simp at h2

/-- Claim C3 (amended): within one scale_read call, every StatusOnly outcome
triggers a retry, whatever its status code: the frame is discarded and the
query re-issued, so no StatusOnly response ever makes read return the
EPROTO protocol error. -/
theorem scale_read_retries_any_statusOnly (f : List ℕ) (rest : List (List ℕ))
    (wp : ℚ) (s : Int) (h : decode f = .statusOnly s) :
    scale_read (f :: rest) wp = scale_read rest wp := by
  simp [scale_read, h]

/-- Claim C3 (witness): the theorem applied to the status-only frame with code
0, a code that is neither 10 nor 11. -/
theorem scale_read_retries_any_statusOnly_witness :
    scale_read [frameS00] 7 = scale_read [] 7 :=
  scale_read_retries_any_statusOnly frameS00 [] 7 0 decode_frameS00

/-- Claim C3 (counterexample): a status-only response with code 00, which is
neither 10 nor 11, is retried rather than reported: with a value frame
following it, scale_read returns that weight instead of the protocol
error the claim requires. -/
theorem scale_read_status00_not_protocol_error :
    decode frameS00 = .statusOnly 0 ∧
      scale_read [frameS00, frameW000S00] 7 = some (.ok 0, 0, []) := by
  refine ⟨decode_frameS00, ?_⟩
  simp [scale_read, decode_frameS00, decode_frameW000S00]

/-- Claim C7 (code evaluation at the failing input): on the canonical
six-dash zeroing frame the failed %f of the value pattern has already
consumed the leading dash as its input item, the six-dash pattern then
fails at its sixth dash, and the status-only pattern consumes the rest:
decode yields StatusOnly 0, so scale_read retries — returning nothing on
the frame alone, and returning a following weight — instead of the
immediate EDOM zeroing fault the claim and the scale.h contract state;
the EDOM branch fires only on a dash frame with an extra dash, which the
scale never sends. -/
theorem scale_read_zero_frame_retries :
    decode frameZero = .statusOnly 0 ∧
      scale_read [frameZero] 7 = none ∧
      scale_read [frameZero, frameW000S00] 7 = some (.ok 0, 0, []) ∧
      decode frameZero7 = .zeroErr 0 ∧
      scale_read [frameZero7] 7 = some (.error .edom, 7, []) := by
  have h0 : decode frameZero = .statusOnly 0 := by decide
  have h7 : decode frameZero7 = .zeroErr 0 := by decide
  refine ⟨h0, ?_, ?_, h7, ?_⟩
  · simp [scale_read, h0]
  · simp [scale_read, h0, decode_frameW000S00]
  · simp [scale_read, h7]

/-- Claim C10: whenever scale_read returns an error the output
location holds exactly its initial contents, and on success it holds
exactly the decoded pounds value, with no unit conversion applied. -/
theorem scale_read_output_location (trace : List (List ℕ)) (wp wp' : ℚ)
    (out : Except ScaleErr ℚ) (rest : List (List ℕ))
    (h : scale_read trace wp = some (out, wp', rest)) :
    (∀ er, out = .error er → wp' = wp) ∧ (∀ v, out = .ok v → wp' = v) := by
  induction trace with
  | nil => simp [scale_read] at h
  | cons f tl ih =>
    cases hd : decode f with
    | weight v s =>
      rw [scale_read, hd] at h
      simp at h
      obtain ⟨hout, hwp, hrest⟩ := h
      subst hout hwp
      exact ⟨fun er her => by simp at her, fun u hu => Except.ok.inj hu⟩
    | overCap s =>
      rw [scale_read, hd] at h
      simp at h
      obtain ⟨hout, hwp, hrest⟩ := h
      subst hout hwp
      exact ⟨fun er _ => rfl, fun v hv => by simp at hv⟩
    | underCap s =>
      rw [scale_read, hd] at h
      simp at h
      obtain ⟨hout, hwp, hrest⟩ := h
      subst hout hwp
      exact ⟨fun er _ => rfl, fun v hv => by simp at hv⟩
    | zeroErr s =>
      rw [scale_read, hd] at h
      simp at h
      obtain ⟨hout, hwp, hrest⟩ := h
      subst hout hwp
      exact ⟨fun er _ => rfl, fun v hv => by simp at hv⟩
    | statusOnly s =>
      rw [scale_read, hd] at h
      exact ih h
    | unparseable =>
      rw [scale_read, hd] at h
      simp at h
      obtain ⟨hout, hwp, hrest⟩ := h
      subst hout hwp
      exact ⟨fun er _ => rfl, fun v hv => by simp at hv⟩

/-- Claim C10 (witness): the theorem applied to a trace whose first
response is the over-capacity frame, with initial output contents 7: the
error leaves the location at 7; and to a trace returning a weight, where
the location holds the decoded value. -/
theorem scale_read_output_location_witness :
    (7 : ℚ) = 7 ∧ (0 : ℚ) = 0 :=
  ⟨(scale_read_output_location [frameOver] 7 7 (.error .erange) []
      (by simp [scale_read, show decode frameOver = .overCap 2 from by decide])).1
        .erange rfl,
    (scale_read_output_location [frameW000S00] 7 0 (.ok 0) []
      (by simp [scale_read, decode_frameW000S00])).2 0 rfl⟩

lemma isDigit_shift (a : ℕ) (h : a < 10) : isDigit (48 + a) = true := by
  simp only [isDigit, Bool.and_eq_true, decide_eq_true_eq]
  omega

lemma scanSign_none (b : ℕ) (r : List ℕ) (h45 : ¬b = 45) (h43 : ¬b = 43) :
    scanSign (b :: r) = (false, b :: r) := by
  simp only [scanSign, if_neg h45, if_neg h43]

lemma scanDigits_stop (b : ℕ) (r : List ℕ) (h : isDigit b = false) :
    scanDigits (b :: r) = (0, 0, b :: r) := by
  simp only [scanDigits, h, Bool.false_eq_true, if_false]

lemma scanDigits_digit (b : ℕ) (hb : b < 10) (r : List ℕ) :
    scanDigits ((48 + b) :: r) =
      (b * 10 ^ (scanDigits r).2.1 + (scanDigits r).1, (scanDigits r).2.1 + 1,
        (scanDigits r).2.2) := by
  rcases hsr : scanDigits r with ⟨v, n, rest⟩
  simp only [scanDigits, isDigit_shift b hb, if_true, hsr]
  simp [Nat.add_sub_cancel_left]

lemma scanDigits_run2 (x y : ℕ) (hx : x < 10) (hy : y < 10) (b : ℕ) (r : List ℕ)
    (hb : isDigit b = false) :
    scanDigits ((48 + x) :: (48 + y) :: b :: r) = (10 * x + y, 2, b :: r) := by
  rw [scanDigits_digit x hx, scanDigits_digit y hy, scanDigits_stop b r hb]
  norm_num
  ring

lemma scanDigits_run3 (x y z : ℕ) (hx : x < 10) (hy : y < 10) (hz : z < 10)
    (b : ℕ) (r : List ℕ) (hb : isDigit b = false) :
    scanDigits ((48 + x) :: (48 + y) :: (48 + z) :: b :: r) =
      (100 * x + 10 * y + z, 3, b :: r) := by
  rw [scanDigits_digit x hx, scanDigits_digit y hy, scanDigits_digit z hz,
    scanDigits_stop b r hb]
  norm_num
  ring

lemma isSpace_shift (a : ℕ) (h : a < 10) : isSpace (48 + a) = false := by
  have h1 : ¬(48 + a = 32) := by omega
  have h2 : ¬(48 + a ≤ 13) := by omega
  simp [isSpace, h1, h2]

lemma floatItem_value (a b c d e : ℕ) (ha : a < 10) (hb : b < 10) (hc : c < 10)
    (hd : d < 10) (he : e < 10) (T : List ℕ) :
    floatItem ((48 + a) :: (48 + b) :: 46 :: (48 + c) :: (48 + d) :: (48 + e) :: 76 :: T) =
      (some ((10 * a + b : ℚ) + (100 * c + 10 * d + e : ℚ) / 1000), 76 :: T) := by
  have h45 : ¬(48 + a) = 45 := by omega
  have h43 : ¬(48 + a) = 43 := by omega
  have hD : isDigit 46 = false := by decide
  have hL : isDigit 76 = false := by decide
  simp only [floatItem, scanSign_none _ _ h45 h43, scanDigits_run2 a b ha hb 46 _ hD,
    scanDigits_run3 c d e hc hd he 76 T hL]
  norm_num

lemma intItem_status (s1 s2 : ℕ) (hs1 : s1 < 10) (hs2 : s2 < 10)
    (b : ℕ) (r : List ℕ) (hb : isDigit b = false) (h45 : ¬(48 + s1) = 45)
    (h43 : ¬(48 + s1) = 43) :
    intItem ((48 + s1) :: (48 + s2) :: b :: r) =
      (some (((10 * s1 + s2 : ℕ) : ℤ)), b :: r) := by
  simp only [intItem, scanSign_none _ _ h45 h43, scanDigits_run2 s1 s2 hs1 hs2 b r hb]
  norm_num

lemma runScan_fmtValue_value (a b c d e s1 s2 : ℕ)
    (ha : a < 10) (hb : b < 10) (hc : c < 10) (hd : d < 10) (he : e < 10)
    (hs1 : s1 < 10) (hs2 : s2 < 10) :
    runScan fmtValue (valueFrame a b c d e s1 s2) none none =
      ⟨[], some ((10 * a + b : ℚ) + (100 * c + 10 * d + e : ℚ) / 1000),
        some (((10 * s1 + s2 : ℕ) : ℤ))⟩ := by
  have h13 : isDigit 13 = false := by decide
  have hs45 : ¬(48 + s1) = 45 := by omega
  have hs43 : ¬(48 + s1) = 43 := by omega
  have hw10 : isSpace 10 = true := by decide
  have hw13 : isSpace 13 = true := by decide
  have hw3 : isSpace 3 = false := by decide
  have hw83 : isSpace 83 = false := by decide
  have hwA : isSpace (48 + a) = false := isSpace_shift a ha
  have hwS1 : isSpace (48 + s1) = false := isSpace_shift s1 hs1
  simp [fmtValue, valueFrame, runScan, List.dropWhile_cons, hw10, hw13, hw3, hw83,
    hwA, hwS1, floatItem_value a b c d e ha hb hc hd he,
    intItem_status s1 s2 hs1 hs2 13 [3] h13 hs45 hs43]

/-- Claim C1 (amended): decode accepts every well-formed 16-byte value
frame and returns Weight with exactly the parsed numeric field, whatever
the two status digits are: the status is parsed but never consulted on
the value path, so a status pair other than 00 or 20 with a value present
still yields Weight, not Unparseable. -/
theorem decode_value_frame_ignores_status (a b c d e s1 s2 : ℕ)
    (ha : a < 10) (hb : b < 10) (hc : c < 10) (hd : d < 10) (he : e < 10)
    (hs1 : s1 < 10) (hs2 : s2 < 10) :
    decode (valueFrame a b c d e s1 s2) =
      .weight ((10 * a + b : ℚ) + (100 * c + 10 * d + e) / 1000) (10 * s1 + s2) := by
  simp only [decode, runScan_fmtValue_value a b c d e s1 s2 ha hb hc hd he hs1 hs2]
  push_cast
  ring_nf

/-- Claim C1 (witness): the theorem applied to the frame carrying 05.120
with status digits 00: decode returns the weight 5.12. -/
theorem decode_value_frame_ignores_status_witness :
    decode (valueFrame 0 5 1 2 0 0 0) =
      .weight ((10 * 0 + 5 : ℚ) + (100 * 1 + 10 * 2 + 0) / 1000) (10 * 0 + 0) :=
  decode_value_frame_ignores_status 0 5 1 2 0 0 0 (by omega) (by omega) (by omega)
    (by omega) (by omega) (by omega) (by omega)

/-- Claim C1 (counterexample): the 16-byte value frame 00.000 with status
digit pair 10 — neither 00 nor 20 — decodes to Weight 0, not to
Unparseable as the claim requires. -/
theorem decode_value_despite_status_10 :
    decode frameW000S10 = .weight 0 10 ∧ decode frameW000S10 ≠ .unparseable := by
  refine ⟨decode_frameW000S10, ?_⟩
  rw [decode_frameW000S10]
  exact fun hcontra => Outcome.noConfusion hcontra

/-- Claim C8 (amended): the exact-field-width rule holds in parse_value of
test/query.c: whenever parse_value accepts a buffer, the strtod parse of
the value field consumed exactly 6 bytes, and the accepted weight is the
parsed value; the decoder of scale_read enforces no such width (see the
counterexample). -/
theorem parse_value_exact_width (buf : List ℕ) (w : ℚ)
    (h : parse_value buf = some w) :
    ∃ rest, strtod (buf.drop 1) = some (w, rest) ∧
      (buf.drop 1).length - rest.length = 6 := by
  unfold parse_value at h
  split at h
  · rcases hs : strtod (buf.drop 1) with _ | ⟨q, rest⟩
    · rw [hs] at h
      exact absurd h (by simp)
    · rw [hs] at h
      dsimp only at h
      split_ifs at h with hlen
      rw [Option.some.injEq] at h
      subst h
      exact ⟨rest, rfl, hlen⟩
  · exact absurd h (by simp)

/-- Claim C8 (witness): the theorem applied to the 00.000 value buffer,
which parse_value accepts with value 0 after a 6-byte numeric parse. -/
theorem parse_value_exact_width_witness :
    ∃ rest, strtod (bufW000.drop 1) = some (0, rest) ∧
      (bufW000.drop 1).length - rest.length = 6 :=
  parse_value_exact_width bufW000 0 (by
    norm_num [bufW000, parse_value, strtod, isSpace, scanDec, scanExp, scanIntSigned,
      scanDigits, scanSign, isDigit, List.dropWhile])

/-- Claim C8 (counterexample): the decoder of scale_read accepts a 13-byte
value frame whose numeric field is 3 bytes wide instead of the regular 6:
the partial-width numeric parse still produces Weight 1.5 rather than the
Unparseable the claim requires. -/
theorem decode_short_value_accepted :
    decode frameW15S00 = .weight (3 / 2) 0 ∧ frameW15S00.length = 13 ∧
      decode frameW15S00 ≠ .unparseable := by
  refine ⟨decode_frameW15S00, by decide, ?_⟩
  rw [decode_frameW15S00]
  exact fun hcontra => Outcome.noConfusion hcontra

/-- Claim C4 (amended): pot_update logs the off event exactly when the
new percentage is negative and the previous one non-negative, and logs
the on event exactly when the new percentage is non-negative and the
previous one non-positive: the on edge fires at a new percentage of 0
too, so two consecutive zero percentages re-log the on event rather than
staying silent. -/
theorem pot_update_edge_characterisation (prev pct : Int) :
    ((pot_update prev pct).1 = some .off ↔ pct < 0 ∧ 0 ≤ prev) ∧
    ((pot_update prev pct).1 = some (.on pct) ↔ 0 ≤ pct ∧ prev ≤ 0) := by
  unfold pot_update
  split_ifs with h1 h2 <;> simp_all

/-- Claim C4 (counterexample): with both the previous and the new
percentage equal to 0 the claim requires no event, but pot_update logs
the on event with percentage 0. -/
theorem pot_update_zero_zero_logs_on :
    pot_update 0 0 = (some (.on 0), 0) := by decide

/-- Claim C5 (amended): when neither branch condition of pot_update
holds, no event at all is logged: there is no Updated event in the code
and the pct_err tolerance is never consulted by pot_update, so percentage
changes without a sign edge are silent whatever their size. -/
theorem pot_update_silent_without_edge (prev pct : Int)
    (h1 : ¬(pct < 0 ∧ 0 ≤ prev)) (h2 : ¬(0 ≤ pct ∧ prev ≤ 0)) :
    pot_update prev pct = (none, pct) := by
  unfold pot_update
  rw [if_neg h1, if_neg h2]

/-- Claim C5 (witness): the theorem applied to a move from 40 to 90
percent, which logs nothing. -/
theorem pot_update_silent_without_edge_witness :
    pot_update 40 90 = (none, 90) :=
  pot_update_silent_without_edge 40 90 (by omega) (by omega)

/-- Claim C5 (counterexample): moving from 50 to 80 percent crosses every
5-percent bucket boundary and meets neither of the claimed edge
conditions, yet pot_update logs no event where the claim requires an
Updated event. -/
theorem pot_update_no_updated_event :
    pot_update 50 80 = (none, 80) ∧ ¬((80 : ℤ) < 0 ∧ (0 : ℤ) ≤ 50) ∧
      ¬((0 : ℤ) ≤ 80 ∧ (50 : ℤ) ≤ 0) ∧ (50 : ℤ) / 5 ≠ 80 / 5 := by decide

/-- Claim C6 (amended): the fill percentage in pot_checker is the C
truncation toward zero of 100 * (w - empty_lbs) / (full_lbs - empty_lbs),
not the rounding to nearest the claim states, and it is not clamped to
the interval from 0 to 100: a weight of 2 * full - empty yields exactly
200. -/
theorem pot_pct_truncation (el fl w : ℚ) (hef : el < fl) :
    (0 ≤ 100 * (w - el) / (fl - el) →
      (pot_pct el fl w : ℚ) ≤ 100 * (w - el) / (fl - el) ∧
        100 * (w - el) / (fl - el) < pot_pct el fl w + 1) ∧
    (100 * (w - el) / (fl - el) < 0 →
      (pot_pct el fl w : ℚ) - 1 < 100 * (w - el) / (fl - el) ∧
        100 * (w - el) / (fl - el) ≤ pot_pct el fl w) ∧
    (w = 2 * fl - el → pot_pct el fl w = 200) := by
  refine ⟨fun h => ?_, fun h => ?_, fun h => ?_⟩
  · unfold pot_pct ratTrunc
    rw [if_pos h]
    exact ⟨Int.floor_le _, Int.lt_floor_add_one _⟩
  · unfold pot_pct ratTrunc
    rw [if_neg (not_le.mpr h)]
    constructor
    · have hc := Int.ceil_lt_add_one (100 * (w - el) / (fl - el))
      linarith
    · exact Int.le_ceil _
  · subst h
    have hne : fl - el ≠ 0 := sub_ne_zero.mpr (ne_of_gt hef)
    have hq : 100 * (2 * fl - el - el) / (fl - el) = (200 : ℚ) := by
      field_simp
      ring
    unfold pot_pct ratTrunc
    rw [hq, if_pos (by norm_num)]
    norm_num

/-- Claim C6 (witness): the theorem applied to empty 0, full 10 and
weight 0.19, whose exact percentage 1.9 is bracketed by the truncated
value. -/
theorem pot_pct_truncation_witness :
    (pot_pct 0 10 (19 / 100) : ℚ) ≤ 100 * ((19 / 100 : ℚ) - 0) / (10 - 0) ∧
      100 * ((19 / 100 : ℚ) - 0) / (10 - 0) < pot_pct 0 10 (19 / 100) + 1 :=
  (pot_pct_truncation 0 10 (19 / 100) (by norm_num)).1 (by norm_num)

/-- Claim C6 (counterexample): with empty 0, full 10 and weight 0.19 the
exact percentage is 1.9: the code computes 1 by truncation where the
claimed rounding to nearest gives 2. -/
theorem pot_pct_not_rounded :
    pot_pct 0 10 (19 / 100) = 1 ∧ pot_pct_spec 0 10 (19 / 100) = 2 := by
  have hq : (100 : ℚ) * (19 / 100 - 0) / (10 - 0) = 19 / 10 := by norm_num
  constructor
  · unfold pot_pct ratTrunc
    rw [hq, if_pos (by norm_num), Int.floor_eq_iff]
    norm_num
  · unfold pot_pct_spec
    rw [hq, round_eq, show (19 / 10 : ℚ) + 1 / 2 = 12 / 5 by norm_num,
      Int.floor_eq_iff]
    norm_num

/-- Claim C9 (amended): the configuration loading of pot_init fails fast
exactly when one of the five required keys (name, scale_device, full_lbs,
empty_lbs, pct_err) is absent; the relation of full_lbs to empty_lbs is
never checked, so a monitor does start on a configuration with full_lbs
less than or equal to empty_lbs. -/
theorem pot_init_checks_presence_only (c : ConfHash) :
    (pot_init c).isSome ↔
      c.name.isSome ∧ c.scale_device.isSome ∧ c.full_lbs.isSome ∧
        c.empty_lbs.isSome ∧ c.pct_err.isSome := by
  obtain ⟨n, d, f, el, p⟩ := c
  cases n <;> cases d <;> cases f <;> cases el <;> cases p <;> simp [pot_init]

/-- Claim C9 (counterexample): a configuration with every required key
present but full_lbs equal to empty_lbs is accepted by pot_init, where
the claim requires a configuration error. -/
theorem pot_init_accepts_equal_bounds :
    (pot_init confEqualBounds).isSome = true ∧
      confEqualBounds.full_lbs = confEqualBounds.empty_lbs :=
  ⟨rfl, rfl⟩

end Brewcop
